import Mathlib

/-!
Shallow embedding of `aioretry/retry.py` (the retry-execution engine of the
python-aioretry library) and proofs of the specification claims about it.

The engine `perform` is an async loop; we model one call to `perform` as a
fuel-indexed recursive function that returns an `Outcome` together with the
ordered list of observable `Event`s of the run: operation attempts, policy
invocations, hook invocations, emitted warnings and sleeps.

Python exceptions are modelled by `PyErr`, whose `isException` flag records
whether the object is an instance of `Exception` (as opposed to a bare
`BaseException` such as a cancellation), because the source only catches
`Exception`.  The wrapped operation is modelled as a function from the
attempt index to a `CallResult`; the policy and the pre-retry hook are
functions from the `RetryInfo` snapshot they receive to a `CallResult`
(the `await`-normalisation of synchronous and awaitable results in the
source is transparent to control flow, so both forms collapse to the
produced value or the raised error).
-/

namespace Aioretry

/-- A Python exception object: `isException` is true iff it is an instance of
`Exception` (the only class caught by `except Exception` in the source). -/
structure PyErr where
  isException : Bool
  eid : Nat
deriving DecidableEq, Repr

/-- Model of class `RetryInfo` (`retry.py` lines 30-49): slots `fails`,
`exception`, `since`. -/
structure RetryInfo where
  fails : Nat
  exception : PyErr
  since : Nat
deriving DecidableEq, Repr

/-- Model of `RetryInfo.update` (`retry.py` lines 51-65): builds a new
`RetryInfo` with `fails + 1`, the new exception, and the same `since`. -/
def RetryInfo.update (i : RetryInfo) (exc : PyErr) : RetryInfo :=
  ⟨i.fails + 1, exc, i.since⟩

/-- Result of calling a Python callable: a value, or a raised `PyErr`. -/
inductive CallResult (α : Type) where
  | ok (v : α)
  | raise (e : PyErr)
deriving DecidableEq, Repr

/-- Observable events of one run of `perform`, in order. -/
inductive Event where
  | attempt (k : Nat)
  | policyCall (i : RetryInfo)
  | hookCall (i : RetryInfo)
  | warned (role : String) (e : PyErr)
  | slept (d : Int)
deriving DecidableEq, Repr

/-- Final outcome of one run of `perform` (or of the decorated wrapper). -/
inductive Outcome (α : Type) where
  | success (v : α)
  | opError (e : PyErr)
  | policyError (e : PyErr)
  | hookError (e : PyErr)
  | baseError (e : PyErr)
  | cfgError (msg : String)
  | attrError (name : String)
  | fuelOut
deriving DecidableEq, Repr

/-- The trace of one run: its outcome plus the ordered event list. -/
structure Trace (α : Type) where
  outcome : Outcome α
  events : List Event
deriving DecidableEq, Repr

/-- Number of times the wrapped operation was invoked in a trace. -/
def isAttemptEv : Event → Bool
  | .attempt _ => true
  | _ => false

def Trace.attempts (t : Trace α) : Nat :=
  t.events.countP isAttemptEv

/-- Delays actually slept during a run, in order. -/
def sleepsOf (l : List Event) : List Int :=
  l.filterMap fun ev =>
    match ev with
    | .slept x => some x
    | _ => none

/-- The `RetryInfo` snapshots handed to the policy during a run, in order. -/
def policyCallsOf (l : List Event) : List RetryInfo :=
  l.filterMap fun ev =>
    match ev with
    | .policyCall i => some i
    | _ => none

/-- The `info = RetryInfo(1, fne, monotonic()) if info is None else
info.update(fne)` step of `perform` (`retry.py` lines 117-120). -/
def nextInfo (info : Option RetryInfo) (fne : PyErr) (now : Nat) : RetryInfo :=
  match info with
  | none => ⟨1, fne, now⟩
  | some j => j.update fne

/-- The hook either is absent or returns normally on snapshot `i`. -/
def hookOk (hook : Option (RetryInfo → CallResult Unit)) (i : RetryInfo) : Prop :=
  match hook with
  | none => True
  | some h => h i = CallResult.ok ()

instance (hook : Option (RetryInfo → CallResult Unit)) (i : RetryInfo) :
    Decidable (hookOk hook i) :=
  match hook with
  | none => isTrue trivial
  | some h => inferInstanceAs (Decidable (h i = CallResult.ok ()))

/-- Model of `perform` (`retry.py` lines 104-146), the retry loop, with
explicit fuel.  State: remaining fuel, the current `info` (None before the
first failure), and the 0-based index of the next attempt.

Control flow of the source, line by line:
* `return await fn(...)` on success;
* `except Exception as fne:` — only `Exception` instances are caught, a bare
  `BaseException` propagates out of the loop uncaught (`baseError`);
* build the new `RetryInfo` via `nextInfo`;
* evaluate the policy; an `Exception` raised by it is warned about
  (`warn('retry_policy', pe)`) and re-raised (`policyError`), a
  non-`Exception` escapes the inner `except Exception` uncaught;
* `if abandon: raise fne` re-raises the caught operation error (`opError`);
* if a hook is present, invoke it; an `Exception` raised by it is warned
  about (`warn('before_retry', be)`) and re-raised (`hookError`), a
  non-`Exception` escapes uncaught;
* `if delay > 0: await asyncio.sleep(delay)`, then loop. -/
def performAux (op : Nat → CallResult α)
    (policy : RetryInfo → CallResult (Bool × Int))
    (hook : Option (RetryInfo → CallResult Unit)) (now : Nat) :
    Nat → Option RetryInfo → Nat → Trace α
  | 0, _, _ => ⟨.fuelOut, []⟩
  | fuel + 1, info, k =>
    match op k with
    | .ok v => ⟨.success v, [.attempt k]⟩
    | .raise fne =>
      if fne.isException then
        let i := nextInfo info fne now
        match policy i with
        | .raise pe =>
          if pe.isException then
            ⟨.policyError pe, [.attempt k, .policyCall i, .warned "retry_policy" pe]⟩
          else
            ⟨.baseError pe, [.attempt k, .policyCall i]⟩
        | .ok (abandon, delay) =>
          if abandon then
            ⟨.opError fne, [.attempt k, .policyCall i]⟩
          else
            match hook with
            | none =>
              let rest := performAux op policy hook now fuel (some i) (k + 1)
              ⟨rest.outcome,
                .attempt k :: .policyCall i ::
                  ((if delay > 0 then [.slept delay] else []) ++ rest.events)⟩
            | some h =>
              match h i with
              | .raise be =>
                if be.isException then
                  ⟨.hookError be,
                    [.attempt k, .policyCall i, .hookCall i, .warned "before_retry" be]⟩
                else
                  ⟨.baseError be, [.attempt k, .policyCall i, .hookCall i]⟩
              | .ok _ =>
                let rest := performAux op policy hook now fuel (some i) (k + 1)
                ⟨rest.outcome,
                  .attempt k :: .policyCall i :: .hookCall i ::
                    ((if delay > 0 then [.slept delay] else []) ++ rest.events)⟩
      else
        ⟨.baseError fne, [.attempt k]⟩

/-- A full run of `perform`: starts with `info = None` at attempt 0. -/
def perform (op : Nat → CallResult α)
    (policy : RetryInfo → CallResult (Bool × Int))
    (hook : Option (RetryInfo → CallResult Unit)) (now fuel : Nat) : Trace α :=
  performAux op policy hook now fuel none 0

/-- The snapshot produced by the `k`-th caught failure (0-based): `fails`
is `k + 1`, `exception` is the `k`-th error, `since` is the timestamp of the
first failure. -/
def infoAt (e : Nat → PyErr) (now k : Nat) : RetryInfo :=
  ⟨k + 1, e k, now⟩

/-- The loop state's `info` when the next attempt index is `k`. -/
def stInfo (e : Nat → PyErr) (now : Nat) : Nat → Option RetryInfo
  | 0 => none
  | k + 1 => some (infoAt e now k)

/-- Attempt `m` fails with exception `e m`, the policy decides
`(False, d m)` on the resulting snapshot, and the hook (when present)
returns normally on it: the loop proceeds to the next attempt. -/
def StepRetries (op : Nat → CallResult α)
    (policy : RetryInfo → CallResult (Bool × Int))
    (hook : Option (RetryInfo → CallResult Unit))
    (e : Nat → PyErr) (d : Nat → Int) (now m : Nat) : Prop :=
  op m = .raise (e m) ∧ (e m).isException = true ∧
    policy (infoAt e now m) = .ok (false, d m) ∧ hookOk hook (infoAt e now m)

instance (op : Nat → CallResult α) (policy : RetryInfo → CallResult (Bool × Int))
    (hook : Option (RetryInfo → CallResult Unit))
    (e : Nat → PyErr) (d : Nat → Int) (now m : Nat)
    [DecidableEq α] : Decidable (StepRetries op policy hook e d now m) :=
  inferInstanceAs (Decidable (_ ∧ _ ∧ _ ∧ _))

/-- The events contributed by `j` consecutive retried failures starting at
attempt `k` (with or without a hook installed). -/
def loopEvents (e : Nat → PyErr) (now : Nat) (d : Nat → Int) (hasHook : Bool) :
    Nat → Nat → List Event
  | _, 0 => []
  | k, j + 1 =>
    .attempt k :: .policyCall (infoAt e now k) ::
      ((if hasHook then [.hookCall (infoAt e now k)] else []) ++
        (if d k > 0 then [.slept (d k)] else []) ++
        loopEvents e now d hasHook (k + 1) j)

/-- The delays slept by `j` consecutive retried failures starting at `k`. -/
def sleepsIn (d : Nat → Int) : Nat → Nat → List Int
  | _, 0 => []
  | k, j + 1 => (if d k > 0 then [d k] else []) ++ sleepsIn d (k + 1) j

/-- The snapshots produced by `j` consecutive failures starting at `k`. -/
def infosIn (e : Nat → PyErr) (now : Nat) : Nat → Nat → List RetryInfo
  | _, 0 => []
  | k, j + 1 => infoAt e now k :: infosIn e now (k + 1) j

/-!
Model of `get_method` (`retry.py` lines 149-183) and of the decorated
wrapper (`retry.py` lines 186-223).

A Python callable value is identified by the id of its underlying function
object (`fid`) plus its `__name__`; `==` on functions is identity, and `==`
on (bound) methods compares `__func__` and `__self__`, which the derived
equality on this representation matches.  `clsWrapper` and `statWrapper`
are `classmethod`/`staticmethod` wrapper objects; `boundMethod`/
`clsBoundMethod` are methods bound to an instance or a class.
-/

inductive PyCallable where
  | plain (fid : Nat) (fname : String)
  | clsWrapper (fid : Nat) (fname : String)
  | statWrapper (fid : Nat) (fname : String)
  | boundMethod (fid : Nat) (fname : String) (hostId : Nat)
  | clsBoundMethod (fid : Nat) (fname : String) (clsId : Nat)
deriving DecidableEq, Repr

/-- The callable's `__name__` (methods and wrappers expose the underlying
function's name). -/
def PyCallable.pyName : PyCallable → String
  | .plain _ n => n
  | .clsWrapper _ n => n
  | .statWrapper _ n => n
  | .boundMethod _ n _ => n
  | .clsBoundMethod _ n _ => n

/-- `isinstance(target, classmethod)`. -/
def PyCallable.isClsWrapper : PyCallable → Bool
  | .clsWrapper _ _ => true
  | _ => false

/-- `isinstance(target, staticmethod)`. -/
def PyCallable.isStatWrapper : PyCallable → Bool
  | .statWrapper _ _ => true
  | _ => false

/-- A Python class: its id and its attribute dictionary (restricted to the
callable attributes relevant to `get_method`; no inheritance). -/
structure PyClass where
  cid : Nat
  attrs : List (String × PyCallable)
deriving DecidableEq, Repr

/-- A Python instance: its id, its class, and its own attribute dictionary
(instance attributes shadow class attributes, since all modelled class
attributes are non-data descriptors). -/
structure PyObject where
  oid : Nat
  cls : PyClass
  attrs : List (String × PyCallable)
deriving DecidableEq, Repr

/-- `getattr(cls, name, None)`: class-attribute access.  A plain function is
returned as itself, a `classmethod` binds to the class, a `staticmethod`
unwraps to the plain function; stored method objects are returned as-is
(they are not descriptors). -/
def getattr_cls (c : PyClass) (s : String) : Option PyCallable :=
  (List.lookup s c.attrs).map fun t =>
    match t with
    | .clsWrapper fid n => .clsBoundMethod fid n c.cid
    | .statWrapper fid n => .plain fid n
    | other => other

/-- `getattr(host, name)`: instance-attribute access.  The instance
dictionary wins (all modelled class attributes are non-data descriptors);
otherwise the class attribute is found via the descriptor protocol: a plain
function binds to the instance, a `classmethod` binds to the class, a
`staticmethod` unwraps. -/
def getattr_inst (h : PyObject) (s : String) : Option PyCallable :=
  match List.lookup s h.attrs with
  | some c => some c
  | none =>
    (List.lookup s h.cls.attrs).map fun t =>
      match t with
      | .plain fid n => .boundMethod fid n h.oid
      | .clsWrapper fid n => .clsBoundMethod fid n h.cls.cid
      | .statWrapper fid n => .plain fid n
      | other => other

/-- `target.__get__(host, cls)`: descriptor binding.  A plain function binds
to the instance, a `classmethod` wrapper binds to the class, a
`staticmethod` wrapper unwraps; method objects forward attribute access to
their `__func__`, so `__get__` on them rebinds the underlying function to
the instance. -/
def dunderGet (t : PyCallable) (hostId clsId : Nat) : PyCallable :=
  match t with
  | .plain fid n => .boundMethod fid n hostId
  | .clsWrapper fid n => .clsBoundMethod fid n clsId
  | .statWrapper fid n => .plain fid n
  | .boundMethod fid n _ => .boundMethod fid n hostId
  | .clsBoundMethod fid n _ => .boundMethod fid n hostId

/-- Result of `get_method`: the resolved callable, or the raised
`RuntimeError` (named reference without a receiver), or the
`AttributeError` raised by `getattr` when the name is missing. -/
inductive GetMethodResult where
  | ok (c : PyCallable)
  | runtimeError (msg : String)
  | attributeError (name : String)
deriving DecidableEq, Repr

/-- Model of `get_method` (`retry.py` lines 149-183):

* a string target with no host raises
  `RuntimeError('[aioretry] decorator should be used for instance method if
  <name> as a str "<target>", which should be fixed')`;
* a string target with a host resolves via `getattr(host, target)`;
* a direct callable with no host is returned unmodified;
* a direct callable with a host is bound via `target.__get__(host, cls)`
  when it is a `classmethod` or `staticmethod` wrapper or compares equal to
  `getattr(cls, target.__name__, None)`, and is returned unmodified
  otherwise. -/
def get_method (target : Sum PyCallable String) (host : Option PyObject)
    (name : String) : GetMethodResult :=
  match target with
  | .inr s =>
    match host with
    | none =>
      .runtimeError ("[aioretry] decorator should be used for instance method if " ++
        name ++ " as a str \"" ++ s ++ "\", which should be fixed")
    | some h =>
      match getattr_inst h s with
      | some c => .ok c
      | none => .attributeError s
  | .inl t =>
    match host with
    | none => .ok t
    | some h =>
      if t.isClsWrapper || t.isStatWrapper ||
          decide (some t = getattr_cls h.cls t.pyName) then
        .ok (dunderGet t h.oid h.cls.cid)
      else
        .ok t

/-- Model of the decorated wrapper (`retry.py` lines 205-219): `host` is
the first positional argument when present, both references are resolved by
`get_method` (the policy first) before `perform` runs; a resolution error
produces an empty trace (the operation is never attempted).  `iP` and `iH`
give the behaviour of resolved policy and hook callables. -/
def wrappedRun {α : Type} (retry_policy : Sum PyCallable String)
    (before_retry : Option (Sum PyCallable String))
    (args : List PyObject)
    (op : Nat → CallResult α)
    (iP : PyCallable → RetryInfo → CallResult (Bool × Int))
    (iH : PyCallable → RetryInfo → CallResult Unit)
    (now fuel : Nat) : Trace α :=
  match get_method retry_policy args.head? "retry_policy" with
  | .runtimeError m => ⟨.cfgError m, []⟩
  | .attributeError s => ⟨.attrError s, []⟩
  | .ok pc =>
    match before_retry with
    | none => performAux op (iP pc) none now fuel none 0
    | some b =>
      match get_method b args.head? "before_retry" with
      | .runtimeError m => ⟨.cfgError m, []⟩
      | .attributeError s => ⟨.attrError s, []⟩
      | .ok hc => performAux op (iP pc) (some (iH hc)) now fuel none 0

/-!
Concrete operations, policies, hooks and objects used to evaluate the
theorems on closed inputs.
-/

/-- The exception raised by attempt `k` in the concrete runs below. -/
def sampleErr (k : Nat) : PyErr := ⟨true, k⟩

/-- Operation failing on every attempt with `sampleErr k`. -/
def sampleOpFail : Nat → CallResult Nat :=
  fun k => CallResult.raise (sampleErr k)

/-- Operation failing on attempts 0 and 1, then returning 42. -/
def sampleOpFail2 : Nat → CallResult Nat :=
  fun k => if k < 2 then CallResult.raise (sampleErr k) else CallResult.ok 42

/-- Operation succeeding immediately with 42. -/
def sampleOpOk : Nat → CallResult Nat := fun _ => CallResult.ok 42

/-- Operation raising a bare `BaseException` on every attempt. -/
def sampleOpBase : Nat → CallResult Nat :=
  fun _ => CallResult.raise ⟨false, 9⟩

/-- Policy abandoning at the third failure, with zero delay. -/
def samplePolicy3 : RetryInfo → CallResult (Bool × Int) :=
  fun i => CallResult.ok (decide (3 ≤ i.fails), 0)

/-- Policy always retrying with zero delay. -/
def samplePolicyNever : RetryInfo → CallResult (Bool × Int) :=
  fun _ => CallResult.ok (false, 0)

/-- Policy always retrying with delay 5. -/
def samplePolicyDelay5 : RetryInfo → CallResult (Bool × Int) :=
  fun _ => CallResult.ok (false, 5)

/-- Policy always retrying with delay -3. -/
def samplePolicyDelayNeg : RetryInfo → CallResult (Bool × Int) :=
  fun _ => CallResult.ok (false, -3)

/-- Policy retrying once, then raising an `Exception` itself. -/
def samplePolicyRaise2 : RetryInfo → CallResult (Bool × Int) :=
  fun i => if 2 ≤ i.fails then CallResult.raise ⟨true, 100⟩
    else CallResult.ok (false, 0)

/-- Policy raising a bare `BaseException`. -/
def samplePolicyBase : RetryInfo → CallResult (Bool × Int) :=
  fun _ => CallResult.raise ⟨false, 10⟩

/-- Hook succeeding on the first failure, then raising an `Exception`. -/
def sampleHookRaise : RetryInfo → CallResult Unit :=
  fun i => if 2 ≤ i.fails then CallResult.raise ⟨true, 200⟩ else CallResult.ok ()

/-- Hook raising a bare `BaseException`. -/
def sampleHookBase : RetryInfo → CallResult Unit :=
  fun _ => CallResult.raise ⟨false, 11⟩

/-- A class with a method `pol` defined on it. -/
def sampleClass : PyClass := ⟨1, [("pol", PyCallable.plain 5 "pol")]⟩

/-- An instance of `sampleClass` with no instance attributes. -/
def sampleObj : PyObject := ⟨2, sampleClass, []⟩

/-- Interpretation of resolved policy callables: abandon immediately. -/
def sampleInterpP : PyCallable → RetryInfo → CallResult (Bool × Int) :=
  fun _ _ => CallResult.ok (true, 0)

/-- Interpretation of resolved hook callables: return normally. -/
def sampleInterpH : PyCallable → RetryInfo → CallResult Unit :=
  fun _ _ => CallResult.ok ()

theorem nextInfo_stInfo (e : Nat → PyErr) (now k : Nat) :
    nextInfo (stInfo e now k) (e k) now = infoAt e now k := by
  cases k <;> rfl

theorem performAux_loop {α : Type} (op : Nat → CallResult α)
    (policy : RetryInfo → CallResult (Bool × Int))
    (hook : Option (RetryInfo → CallResult Unit))
    (e : Nat → PyErr) (d : Nat → Int) (now : Nat) :
    ∀ (j k fuel : Nat),
      (∀ m, k ≤ m → m < k + j → StepRetries op policy hook e d now m) →
      performAux op policy hook now (fuel + j) (stInfo e now k) k =
        ⟨(performAux op policy hook now fuel (stInfo e now (k + j)) (k + j)).outcome,
          loopEvents e now d hook.isSome k j ++
            (performAux op policy hook now fuel (stInfo e now (k + j)) (k + j)).events⟩ := by
  intro j
  induction j with
  | zero =>
    intro k fuel _
    simp [loopEvents]
  | succ jj ih =>
    intro k fuel H
    obtain ⟨hop, hexc, hpol, hhook⟩ := H k (le_refl k) (by omega)
    have hfuel : fuel + (jj + 1) = (fuel + jj) + 1 := by omega
    have hk : k + (jj + 1) = (k + 1) + jj := by omega
    have ih1 := ih (k + 1) fuel (fun m hm1 hm2 => H m (by omega) (by omega))
    rw [hfuel, hk]
    cases hcase : hook with
    | none =>
      rw [hcase] at ih1
      simp only [performAux, hop, hexc, if_true, nextInfo_stInfo, hpol,
        Bool.false_eq_true, if_false, loopEvents, Option.isSome_none,
        Bool.false_eq_true]
      rw [show stInfo e now (k + 1) = some (infoAt e now k) from rfl] at ih1
      rw [ih1]
      simp [loopEvents, List.append_assoc]
    | some h =>
      rw [hcase] at ih1 hhook
      have hh : h (infoAt e now k) = CallResult.ok () := hhook
      simp only [performAux, hop, hexc, if_true, nextInfo_stInfo, hpol,
        Bool.false_eq_true, if_false, hh]
      rw [show stInfo e now (k + 1) = some (infoAt e now k) from rfl] at ih1
      rw [ih1]
      simp [loopEvents, List.append_assoc]

theorem countP_attempt_loopEvents (e : Nat → PyErr) (now : Nat) (d : Nat → Int)
    (b : Bool) : ∀ (j k : Nat), (loopEvents e now d b k j).countP isAttemptEv = j := by
  intro j
  induction j with
  | zero => intro k; rfl
  | succ jj ih =>
    intro k
    cases b <;> rcases lt_or_le 0 (d k) with hd | hd <;>
      simp [loopEvents, List.countP_cons, List.countP_append, List.countP_nil,
        isAttemptEv, hd, not_lt.mpr hd, ih (k + 1)]

theorem sleepsOf_loopEvents (e : Nat → PyErr) (now : Nat) (d : Nat → Int)
    (b : Bool) : ∀ (j k : Nat), sleepsOf (loopEvents e now d b k j) = sleepsIn d k j := by
  intro j
  induction j with
  | zero => intro k; rfl
  | succ jj ih =>
    intro k
    simp only [loopEvents, sleepsIn, sleepsOf, List.filterMap_cons, List.filterMap_append]
    rw [show (List.filterMap _ (loopEvents e now d b (k + 1) jj)) = sleepsIn d (k + 1) jj
      from ih (k + 1)]
    cases b <;> rcases lt_or_le 0 (d k) with hd | hd <;>
      simp [hd, not_lt.mpr hd]

theorem policyCallsOf_loopEvents (e : Nat → PyErr) (now : Nat) (d : Nat → Int)
    (b : Bool) : ∀ (j k : Nat),
      policyCallsOf (loopEvents e now d b k j) = infosIn e now k j := by
  intro j
  induction j with
  | zero => intro k; rfl
  | succ jj ih =>
    intro k
    simp only [loopEvents, infosIn, policyCallsOf, List.filterMap_cons, List.filterMap_append]
    rw [show (List.filterMap _ (loopEvents e now d b (k + 1) jj)) = infosIn e now (k + 1) jj
      from ih (k + 1)]
    cases b <;> rcases lt_or_le 0 (d k) with hd | hd <;>
      simp [hd, not_lt.mpr hd]

theorem hookCall_mem_loopEvents (e : Nat → PyErr) (now : Nat) (d : Nat → Int)
    (b : Bool) (i : RetryInfo) : ∀ (j k : Nat),
      Event.hookCall i ∈ loopEvents e now d b k j →
        ∃ m, k ≤ m ∧ m < k + j ∧ i = infoAt e now m := by
  intro j
  induction j with
  | zero => intro k h; simp [loopEvents] at h
  | succ jj ih =>
    intro k h
    simp only [loopEvents, List.mem_cons, List.mem_append] at h
    rcases h with h | h | h
    · exact absurd h (by simp)
    · exact absurd h (by simp)
    · rcases h with (h | h) | h
      · cases b with
        | false => simp at h
        | true =>
          simp only [if_true, List.mem_singleton] at h
          exact ⟨k, le_refl k, by omega, by injection h⟩
      · rcases lt_or_le 0 (d k) with hd | hd
        · simp [hd] at h
        · simp [not_lt.mpr hd] at h
      · obtain ⟨m, hm1, hm2, hm3⟩ := ih (k + 1) h
        exact ⟨m, by omega, by omega, hm3⟩

theorem performAux_events_head {α : Type} (op : Nat → CallResult α)
    (policy : RetryInfo → CallResult (Bool × Int))
    (hook : Option (RetryInfo → CallResult Unit)) (now : Nat)
    (fuel : Nat) (info : Option RetryInfo) (k : Nat) :
    ∃ l, (performAux op policy hook now (fuel + 1) info k).events =
      Event.attempt k :: l := by
  cases hop : op k with
  | ok v => exact ⟨[], by simp [performAux, hop]⟩
  | raise fne =>
    by_cases hexc : fne.isException = true
    · cases hpol : policy (nextInfo info fne now) with
      | raise pe =>
        by_cases hpe : pe.isException = true
        · simp [performAux, hop, hexc, hpol, hpe]
        · simp [performAux, hop, hexc, hpol, hpe]
      | ok p =>
        obtain ⟨abandon, delay⟩ := p
        cases abandon with
        | true => simp [performAux, hop, hexc, hpol]
        | false =>
          cases hook with
          | none => simp [performAux, hop, hexc, hpol]
          | some h =>
            cases hh : h (nextInfo info fne now) with
            | ok u => simp [performAux, hop, hexc, hpol, hh]
            | raise be =>
              by_cases hbe : be.isException = true
              · simp [performAux, hop, hexc, hpol, hh, hbe]
              · simp [performAux, hop, hexc, hpol, hh, hbe]
    · simp [performAux, hop, hexc]

/-- Claim C4: if the first invocation of the wrapped operation succeeds,
`perform` returns that result unchanged, the operation is invoked exactly
once, and neither the policy nor the hook is ever invoked. -/
theorem run_first_success {α : Type} (op : Nat → CallResult α)
    (policy : RetryInfo → CallResult (Bool × Int))
    (hook : Option (RetryInfo → CallResult Unit)) (now f : Nat) (v : α)
    (hop : op 0 = CallResult.ok v) :
    perform op policy hook now (f + 1) = ⟨.success v, [.attempt 0]⟩ ∧
      (perform op policy hook now (f + 1)).attempts = 1 ∧
      (∀ i, Event.policyCall i ∉ (perform op policy hook now (f + 1)).events) ∧
      (∀ i, Event.hookCall i ∉ (perform op policy hook now (f + 1)).events) := by
  have h1 : perform op policy hook now (f + 1) = ⟨.success v, [.attempt 0]⟩ := by
    simp [perform, performAux, hop]
  refine ⟨h1, ?_, ?_, ?_⟩ <;> rw [h1] <;>
    simp [Trace.attempts, List.countP_cons, List.countP_nil, isAttemptEv]

/-- Claim C1: if the operation fails with exceptions on its first `M + 1`
invocations, the policy decides `(False, d m)` on each of the first `M`
failure snapshots (with the hook, when present, returning normally), and the
policy decides `(True, dA)` on the `M + 1`-st failure snapshot, then
`perform` raises exactly the error caught on the `M + 1`-st attempt
(`opError (e M)`, the most recent `last_error`) and the operation is invoked
exactly `M + 1` times. -/
theorem run_abandon_raises_nth {α : Type} (op : Nat → CallResult α)
    (policy : RetryInfo → CallResult (Bool × Int))
    (hook : Option (RetryInfo → CallResult Unit))
    (e : Nat → PyErr) (d : Nat → Int) (now M f : Nat) (dA : Int)
    (Hpre : ∀ m, m < M → StepRetries op policy hook e d now m)
    (Hop : op M = CallResult.raise (e M)) (Hexc : (e M).isException = true)
    (Hab : policy (infoAt e now M) = CallResult.ok (true, dA)) :
    perform op policy hook now (f + 1 + M) =
      ⟨.opError (e M),
        loopEvents e now d hook.isSome 0 M ++
          [.attempt M, .policyCall (infoAt e now M)]⟩ ∧
      (perform op policy hook now (f + 1 + M)).attempts = M + 1 ∧
      (infoAt e now M).exception = e M := by
  have hR : performAux op policy hook now (f + 1) (stInfo e now M) M =
      ⟨.opError (e M), [.attempt M, .policyCall (infoAt e now M)]⟩ := by
    simp [performAux, Hop, Hexc, nextInfo_stInfo, Hab]
  have hL := performAux_loop op policy hook e d now M 0 (f + 1)
    (fun m _ hm2 => Hpre m (by omega))
  simp only [Nat.zero_add] at hL
  have h1 : perform op policy hook now (f + 1 + M) =
      ⟨.opError (e M),
        loopEvents e now d hook.isSome 0 M ++
          [.attempt M, .policyCall (infoAt e now M)]⟩ := by
    rw [perform, show (none : Option RetryInfo) = stInfo e now 0 from rfl, hL, hR]
  refine ⟨h1, ?_, rfl⟩
  rw [h1]
  simp [Trace.attempts, List.countP_append, countP_attempt_loopEvents,
    List.countP_cons, List.countP_nil, isAttemptEv]

/-- Claim C2: if after `M` retried failures the policy itself raises an
exception `pe` on the `M + 1`-st failure snapshot, then `perform` reports
`pe` through the warning sink under the role name `retry_policy` and raises
`pe` itself (not the operation's error), the operation is not attempted
again (exactly `M + 1` invocations), and the hook is never invoked for that
failure snapshot. -/
theorem run_policy_error {α : Type} (op : Nat → CallResult α)
    (policy : RetryInfo → CallResult (Bool × Int))
    (hook : Option (RetryInfo → CallResult Unit))
    (e : Nat → PyErr) (d : Nat → Int) (now M f : Nat) (pe : PyErr)
    (Hpre : ∀ m, m < M → StepRetries op policy hook e d now m)
    (Hop : op M = CallResult.raise (e M)) (Hexc : (e M).isException = true)
    (Hpol : policy (infoAt e now M) = CallResult.raise pe)
    (Hpe : pe.isException = true) :
    perform op policy hook now (f + 1 + M) =
      ⟨.policyError pe,
        loopEvents e now d hook.isSome 0 M ++
          [.attempt M, .policyCall (infoAt e now M), .warned "retry_policy" pe]⟩ ∧
      (perform op policy hook now (f + 1 + M)).attempts = M + 1 ∧
      Event.hookCall (infoAt e now M) ∉ (perform op policy hook now (f + 1 + M)).events := by
  have hR : performAux op policy hook now (f + 1) (stInfo e now M) M =
      ⟨.policyError pe,
        [.attempt M, .policyCall (infoAt e now M), .warned "retry_policy" pe]⟩ := by
    simp [performAux, Hop, Hexc, nextInfo_stInfo, Hpol, Hpe]
  have hL := performAux_loop op policy hook e d now M 0 (f + 1)
    (fun m _ hm2 => Hpre m (by omega))
  simp only [Nat.zero_add] at hL
  have h1 : perform op policy hook now (f + 1 + M) =
      ⟨.policyError pe,
        loopEvents e now d hook.isSome 0 M ++
          [.attempt M, .policyCall (infoAt e now M), .warned "retry_policy" pe]⟩ := by
    rw [perform, show (none : Option RetryInfo) = stInfo e now 0 from rfl, hL, hR]
  refine ⟨h1, ?_, ?_⟩
  · rw [h1]
    simp [Trace.attempts, List.countP_append, countP_attempt_loopEvents,
      List.countP_cons, List.countP_nil, isAttemptEv]
  · rw [h1]
    intro hmem
    rw [List.mem_append] at hmem
    rcases hmem with hmem | hmem
    · obtain ⟨m, _, hm2, hm3⟩ :=
        hookCall_mem_loopEvents e now d hook.isSome (infoAt e now M) M 0 hmem
      have hfails := congrArg RetryInfo.fails hm3
      simp only [infoAt] at hfails
      omega
    · simp at hmem

/-- Claim C3: if after `M` retried failures the policy decides
`(False, δ)` on the `M + 1`-st failure snapshot but the pre-retry hook
raises an exception `be` there, then `perform` reports `be` through the
warning sink under the role name `before_retry` and raises `be` itself (not
the operation's error), no delay is slept for that failure, and the
operation is not attempted again (exactly `M + 1` invocations). -/
theorem run_hook_error {α : Type} (op : Nat → CallResult α)
    (policy : RetryInfo → CallResult (Bool × Int))
    (h : RetryInfo → CallResult Unit)
    (e : Nat → PyErr) (d : Nat → Int) (now M f : Nat) (δ : Int) (be : PyErr)
    (Hpre : ∀ m, m < M → StepRetries op policy (some h) e d now m)
    (Hop : op M = CallResult.raise (e M)) (Hexc : (e M).isException = true)
    (Hpol : policy (infoAt e now M) = CallResult.ok (false, δ))
    (Hh : h (infoAt e now M) = CallResult.raise be)
    (Hbe : be.isException = true) :
    perform op policy (some h) now (f + 1 + M) =
      ⟨.hookError be,
        loopEvents e now d true 0 M ++
          [.attempt M, .policyCall (infoAt e now M), .hookCall (infoAt e now M),
            .warned "before_retry" be]⟩ ∧
      (perform op policy (some h) now (f + 1 + M)).attempts = M + 1 ∧
      sleepsOf (perform op policy (some h) now (f + 1 + M)).events = sleepsIn d 0 M := by
  have hR : performAux op policy (some h) now (f + 1) (stInfo e now M) M =
      ⟨.hookError be,
        [.attempt M, .policyCall (infoAt e now M), .hookCall (infoAt e now M),
          .warned "before_retry" be]⟩ := by
    simp [performAux, Hop, Hexc, nextInfo_stInfo, Hpol, Hh, Hbe]
  have hL := performAux_loop op policy (some h) e d now M 0 (f + 1)
    (fun m _ hm2 => Hpre m (by omega))
  simp only [Nat.zero_add, Option.isSome_some] at hL
  have h1 : perform op policy (some h) now (f + 1 + M) =
      ⟨.hookError be,
        loopEvents e now d true 0 M ++
          [.attempt M, .policyCall (infoAt e now M), .hookCall (infoAt e now M),
            .warned "before_retry" be]⟩ := by
    rw [perform, show (none : Option RetryInfo) = stInfo e now 0 from rfl, hL, hR]
  refine ⟨h1, ?_, ?_⟩
  · rw [h1]
    simp [Trace.attempts, List.countP_append, countP_attempt_loopEvents,
      List.countP_cons, List.countP_nil, isAttemptEv]
  · rw [h1]
    simp only [sleepsOf, List.filterMap_append, List.filterMap_cons, List.filterMap_nil]
    rw [show List.filterMap _ (loopEvents e now d true 0 M) = sleepsIn d 0 M
      from sleepsOf_loopEvents e now d true M 0]
    simp

/-- Claim C5: `RetryInfo.update` derives a fresh snapshot (a new value with
`fails + 1`, the newly caught exception and the same `since`, never equal to
the snapshot it was derived from), and within one run with `M` retried
failures followed by a success the snapshots handed to the policy are
exactly `infosIn e now 0 M`, whose `k`-th element has `fails = k + 1`
(the previous snapshot's count plus one, starting at 1), `since = now`
(the first snapshot's value) and `exception = e k` (the newly caught
error). -/
theorem snapshot_invariants {α : Type} (op : Nat → CallResult α)
    (policy : RetryInfo → CallResult (Bool × Int))
    (hook : Option (RetryInfo → CallResult Unit))
    (e : Nat → PyErr) (d : Nat → Int) (now M f : Nat) (v : α)
    (Hpre : ∀ m, m < M → StepRetries op policy hook e d now m)
    (Hop : op M = CallResult.ok v) :
    (∀ (i : RetryInfo) (exc : PyErr),
        RetryInfo.update i exc = ⟨i.fails + 1, exc, i.since⟩ ∧
          RetryInfo.update i exc ≠ i) ∧
      policyCallsOf (perform op policy hook now (f + 1 + M)).events =
        infosIn e now 0 M ∧
      (∀ k, (infoAt e now k).fails = k + 1 ∧ (infoAt e now k).since = now ∧
        (infoAt e now k).exception = e k ∧ infoAt e now (k + 1) ≠ infoAt e now k) := by
  have hR : performAux op policy hook now (f + 1) (stInfo e now M) M =
      ⟨.success v, [.attempt M]⟩ := by
    simp [performAux, Hop]
  have hL := performAux_loop op policy hook e d now M 0 (f + 1)
    (fun m _ hm2 => Hpre m (by omega))
  simp only [Nat.zero_add] at hL
  have h1 : perform op policy hook now (f + 1 + M) =
      ⟨.success v, loopEvents e now d hook.isSome 0 M ++ [.attempt M]⟩ := by
    rw [perform, show (none : Option RetryInfo) = stInfo e now 0 from rfl, hL, hR]
  refine ⟨?_, ?_, ?_⟩
  · intro i exc
    refine ⟨rfl, fun hEq => ?_⟩
    have := congrArg RetryInfo.fails hEq
    simp only [RetryInfo.update] at this
    omega
  · rw [h1]
    simp only [policyCallsOf, List.filterMap_append, List.filterMap_cons,
      List.filterMap_nil]
    rw [show List.filterMap _ (loopEvents e now d hook.isSome 0 M) = infosIn e now 0 M
      from policyCallsOf_loopEvents e now d hook.isSome M 0]
    simp
  · intro k
    refine ⟨rfl, rfl, rfl, fun hEq => ?_⟩
    have := congrArg RetryInfo.fails hEq
    simp only [infoAt] at this
    omega

/-- Claim C6: for a non-abandon decision `(False, δ)` on the snapshot of the
failure caught at attempt `k`: if `δ > 0` the engine sleeps exactly `δ`
after the hook step and before re-invoking the operation, and if `δ = 0` no
sleep event is produced and the loop continues directly with attempt
`k + 1` (which, given remaining fuel, is the next event). -/
theorem delay_decision_sleep {α : Type} (op : Nat → CallResult α)
    (policy : RetryInfo → CallResult (Bool × Int))
    (hook : Option (RetryInfo → CallResult Unit)) (now fuel : Nat)
    (info : Option RetryInfo) (k : Nat) (fne : PyErr) (δ : Int)
    (Hop : op k = CallResult.raise fne) (Hexc : fne.isException = true)
    (Hpol : policy (nextInfo info fne now) = CallResult.ok (false, δ))
    (Hhook : hookOk hook (nextInfo info fne now)) :
    (δ > 0 →
      performAux op policy hook now (fuel + 1) info k =
        ⟨(performAux op policy hook now fuel (some (nextInfo info fne now)) (k + 1)).outcome,
          .attempt k :: .policyCall (nextInfo info fne now) ::
            ((if hook.isSome then [.hookCall (nextInfo info fne now)] else []) ++
              .slept δ ::
                (performAux op policy hook now fuel
                  (some (nextInfo info fne now)) (k + 1)).events)⟩) ∧
    (δ = 0 →
      performAux op policy hook now (fuel + 1) info k =
        ⟨(performAux op policy hook now fuel (some (nextInfo info fne now)) (k + 1)).outcome,
          .attempt k :: .policyCall (nextInfo info fne now) ::
            ((if hook.isSome then [.hookCall (nextInfo info fne now)] else []) ++
              (performAux op policy hook now fuel
                (some (nextInfo info fne now)) (k + 1)).events)⟩) ∧
    (∀ f', fuel = f' + 1 →
      ∃ l, (performAux op policy hook now fuel
        (some (nextInfo info fne now)) (k + 1)).events = Event.attempt (k + 1) :: l) := by
  refine ⟨?_, ?_, ?_⟩
  · intro hδ
    cases hookcase : hook with
    | none => simp [performAux, Hop, Hexc, Hpol, hδ]
    | some h =>
      rw [hookcase] at Hhook
      have hh : h (nextInfo info fne now) = CallResult.ok () := Hhook
      simp [performAux, Hop, Hexc, Hpol, hh, hδ]
  · intro hδ
    subst hδ
    cases hookcase : hook with
    | none => simp [performAux, Hop, Hexc, Hpol]
    | some h =>
      rw [hookcase] at Hhook
      have hh : h (nextInfo info fne now) = CallResult.ok () := Hhook
      simp [performAux, Hop, Hexc, Hpol, hh]
  · intro f' hf
    subst hf
    exact performAux_events_head op policy hook now f' (some (nextInfo info fne now)) (k + 1)

/-- Claim C10: the engine never validates that a delay is non-negative: for
any non-abandon decision `(False, δ)` with `δ ≤ 0` (including strictly
negative delays) no sleep event is produced, and the loop continues directly
with attempt `k + 1` (which, given remaining fuel, is the next event) —
exactly the behaviour of `δ = 0`. -/
theorem nonpositive_delay_no_sleep {α : Type} (op : Nat → CallResult α)
    (policy : RetryInfo → CallResult (Bool × Int))
    (hook : Option (RetryInfo → CallResult Unit)) (now fuel : Nat)
    (info : Option RetryInfo) (k : Nat) (fne : PyErr) (δ : Int)
    (Hop : op k = CallResult.raise fne) (Hexc : fne.isException = true)
    (Hpol : policy (nextInfo info fne now) = CallResult.ok (false, δ))
    (Hneg : δ ≤ 0)
    (Hhook : hookOk hook (nextInfo info fne now)) :
    performAux op policy hook now (fuel + 1) info k =
      ⟨(performAux op policy hook now fuel (some (nextInfo info fne now)) (k + 1)).outcome,
        .attempt k :: .policyCall (nextInfo info fne now) ::
          ((if hook.isSome then [.hookCall (nextInfo info fne now)] else []) ++
            (performAux op policy hook now fuel
              (some (nextInfo info fne now)) (k + 1)).events)⟩ ∧
    (∀ f', fuel = f' + 1 →
      ∃ l, (performAux op policy hook now fuel
        (some (nextInfo info fne now)) (k + 1)).events = Event.attempt (k + 1) :: l) := by
  refine ⟨?_, ?_⟩
  · cases hookcase : hook with
    | none => simp [performAux, Hop, Hexc, Hpol, not_lt.mpr Hneg]
    | some h =>
      rw [hookcase] at Hhook
      have hh : h (nextInfo info fne now) = CallResult.ok () := Hhook
      simp [performAux, Hop, Hexc, Hpol, hh, not_lt.mpr Hneg]
  · intro f' hf
    subst hf
    exact performAux_events_head op policy hook now f' (some (nextInfo info fne now)) (k + 1)

/-- Claim C9: only `Exception` instances are caught and routed through the
policy.  A `BaseException` that is not an `Exception` raised (1) by the
operation propagates immediately without any policy evaluation and without
a warning, (2) by the policy propagates without a warning, and (3) by the
hook propagates without a warning; in each case no further attempt of the
operation occurs. -/
theorem base_exception_propagates {α : Type} :
    (∀ (op : Nat → CallResult α) (policy : RetryInfo → CallResult (Bool × Int))
        (hook : Option (RetryInfo → CallResult Unit)) (now fuel : Nat)
        (info : Option RetryInfo) (k : Nat) (fne : PyErr),
      op k = CallResult.raise fne → fne.isException = false →
        performAux op policy hook now (fuel + 1) info k =
          ⟨.baseError fne, [.attempt k]⟩) ∧
    (∀ (op : Nat → CallResult α) (policy : RetryInfo → CallResult (Bool × Int))
        (hook : Option (RetryInfo → CallResult Unit)) (now fuel : Nat)
        (info : Option RetryInfo) (k : Nat) (fne pe : PyErr),
      op k = CallResult.raise fne → fne.isException = true →
        policy (nextInfo info fne now) = CallResult.raise pe → pe.isException = false →
        performAux op policy hook now (fuel + 1) info k =
          ⟨.baseError pe, [.attempt k, .policyCall (nextInfo info fne now)]⟩) ∧
    (∀ (op : Nat → CallResult α) (policy : RetryInfo → CallResult (Bool × Int))
        (h : RetryInfo → CallResult Unit) (now fuel : Nat)
        (info : Option RetryInfo) (k : Nat) (fne be : PyErr) (δ : Int),
      op k = CallResult.raise fne → fne.isException = true →
        policy (nextInfo info fne now) = CallResult.ok (false, δ) →
        h (nextInfo info fne now) = CallResult.raise be → be.isException = false →
        performAux op policy (some h) now (fuel + 1) info k =
          ⟨.baseError be,
            [.attempt k, .policyCall (nextInfo info fne now),
              .hookCall (nextInfo info fne now)]⟩) := by
  refine ⟨?_, ?_, ?_⟩
  · intro op policy hook now fuel info k fne Hop Hexc
    simp [performAux, Hop, Hexc]
  · intro op policy hook now fuel info k fne pe Hop Hexc Hpol Hpe
    simp [performAux, Hop, Hexc, Hpol, Hpe]
  · intro op policy h now fuel info k fne be δ Hop Hexc Hpol Hh Hbe
    simp [performAux, Hop, Hexc, Hpol, Hh, Hbe]


/-- Claim C7: when the policy or the hook of a decorated function is
supplied as a string name and the wrapped call has no positional arguments
(no receiver), a configuration error whose message names the role
(`retry_policy` or `before_retry`) and the unresolved name is raised before
the operation is ever attempted (the trace is empty); when a receiver is
present, the name is looked up on the receiver and the resulting bound
callable drives the retry loop. -/
theorem named_reference_resolution {α : Type} (s : String)
    (op : Nat → CallResult α)
    (iP : PyCallable → RetryInfo → CallResult (Bool × Int))
    (iH : PyCallable → RetryInfo → CallResult Unit)
    (now fuel : Nat) :
    (∀ br, wrappedRun (Sum.inr s) br [] op iP iH now fuel =
        ⟨.cfgError ("[aioretry] decorator should be used for instance method if retry_policy as a str \"" ++
          s ++ "\", which should be fixed"), []⟩) ∧
    (∀ t : PyCallable,
      wrappedRun (Sum.inl t) (some (Sum.inr s)) [] op iP iH now fuel =
        ⟨.cfgError ("[aioretry] decorator should be used for instance method if before_retry as a str \"" ++
          s ++ "\", which should be fixed"), []⟩) ∧
    (∀ (h : PyObject) (rest : List PyObject) (c : PyCallable),
      getattr_inst h s = some c →
        wrappedRun (Sum.inr s) none (h :: rest) op iP iH now fuel =
          performAux op (iP c) none now fuel none 0) := by
  refine ⟨?_, ?_, ?_⟩
  · intro br
    simp [wrappedRun, get_method]
  · intro t
    simp [wrappedRun, get_method]
  · intro h rest c hres
    simp [wrappedRun, get_method, hres]

/-- Claim C8: resolving a directly-supplied callable against a present
receiver binds it via the descriptor protocol exactly when it is a
`classmethod` wrapper (bound to the receiver's class), a `staticmethod`
wrapper (unwrapped), or compares equal to the attribute of the same name on
the receiver's class (a plain function defined in the class binds to the
receiver); any other callable — in particular a plain external function,
regardless of any instance attribute of the same name — is used
unmodified. -/
theorem direct_callable_binding (host : PyObject) (nm : String) :
    (∀ fid n, get_method (Sum.inl (PyCallable.clsWrapper fid n)) (some host) nm =
        .ok (PyCallable.clsBoundMethod fid n host.cls.cid)) ∧
    (∀ fid n, get_method (Sum.inl (PyCallable.statWrapper fid n)) (some host) nm =
        .ok (PyCallable.plain fid n)) ∧
    (∀ t : PyCallable, some t = getattr_cls host.cls t.pyName →
        get_method (Sum.inl t) (some host) nm =
          .ok (dunderGet t host.oid host.cls.cid)) ∧
    (∀ fid n, some (PyCallable.plain fid n) ≠ getattr_cls host.cls n →
        get_method (Sum.inl (PyCallable.plain fid n)) (some host) nm =
          .ok (PyCallable.plain fid n)) := by
  refine ⟨?_, ?_, ?_, ?_⟩
  · intro fid n
    simp [get_method, PyCallable.isClsWrapper, dunderGet]
  · intro fid n
    simp [get_method, PyCallable.isClsWrapper, PyCallable.isStatWrapper, dunderGet]
  · intro t heq
    simp [get_method, heq.symm]
  · intro fid n hne
    simp [get_method, PyCallable.isClsWrapper, PyCallable.isStatWrapper,
      PyCallable.pyName, hne]

/-- Concrete evaluation of `run_abandon_raises_nth`: an always-failing
operation with a policy abandoning at the third failure. -/
theorem run_abandon_raises_nth_witness :
    perform sampleOpFail samplePolicy3 none 0 (0 + 1 + 2) =
      ⟨.opError (sampleErr 2),
        loopEvents sampleErr 0 (fun _ => 0) false 0 2 ++
          [.attempt 2, .policyCall (infoAt sampleErr 0 2)]⟩ ∧
      (perform sampleOpFail samplePolicy3 none 0 (0 + 1 + 2)).attempts = 2 + 1 ∧
      (infoAt sampleErr 0 2).exception = sampleErr 2 :=
  run_abandon_raises_nth sampleOpFail samplePolicy3 none sampleErr (fun _ => 0) 0 2 0 0
    (by decide) (by decide) (by decide) (by decide)

/-- Concrete evaluation of `run_policy_error`: the policy retries once and
then raises an exception itself. -/
theorem run_policy_error_witness :
    perform sampleOpFail samplePolicyRaise2 none 0 (0 + 1 + 1) =
      ⟨.policyError ⟨true, 100⟩,
        loopEvents sampleErr 0 (fun _ => 0) false 0 1 ++
          [.attempt 1, .policyCall (infoAt sampleErr 0 1),
            .warned "retry_policy" ⟨true, 100⟩]⟩ ∧
      (perform sampleOpFail samplePolicyRaise2 none 0 (0 + 1 + 1)).attempts = 1 + 1 ∧
      Event.hookCall (infoAt sampleErr 0 1) ∉
        (perform sampleOpFail samplePolicyRaise2 none 0 (0 + 1 + 1)).events :=
  run_policy_error sampleOpFail samplePolicyRaise2 none sampleErr (fun _ => 0) 0 1 0
    ⟨true, 100⟩ (by decide) (by decide) (by decide) (by decide) (by decide)

/-- Concrete evaluation of `run_hook_error`: the hook succeeds once and then
raises an exception itself. -/
theorem run_hook_error_witness :
    perform sampleOpFail samplePolicyNever (some sampleHookRaise) 0 (0 + 1 + 1) =
      ⟨.hookError ⟨true, 200⟩,
        loopEvents sampleErr 0 (fun _ => 0) true 0 1 ++
          [.attempt 1, .policyCall (infoAt sampleErr 0 1),
            .hookCall (infoAt sampleErr 0 1), .warned "before_retry" ⟨true, 200⟩]⟩ ∧
      (perform sampleOpFail samplePolicyNever (some sampleHookRaise) 0
        (0 + 1 + 1)).attempts = 1 + 1 ∧
      sleepsOf (perform sampleOpFail samplePolicyNever (some sampleHookRaise) 0
        (0 + 1 + 1)).events = sleepsIn (fun _ => 0) 0 1 :=
  run_hook_error sampleOpFail samplePolicyNever sampleHookRaise sampleErr (fun _ => 0)
    0 1 0 0 ⟨true, 200⟩ (by decide) (by decide) (by decide) (by decide) (by decide)
    (by decide)

/-- Concrete evaluation of `run_first_success`: the operation succeeds on
its first attempt. -/
theorem run_first_success_witness :
    perform sampleOpOk samplePolicyNever none 0 (0 + 1) =
      ⟨.success 42, [.attempt 0]⟩ ∧
      (perform sampleOpOk samplePolicyNever none 0 (0 + 1)).attempts = 1 ∧
      (∀ i, Event.policyCall i ∉
        (perform sampleOpOk samplePolicyNever none 0 (0 + 1)).events) ∧
      (∀ i, Event.hookCall i ∉
        (perform sampleOpOk samplePolicyNever none 0 (0 + 1)).events) :=
  run_first_success sampleOpOk samplePolicyNever none 0 0 42 (by decide)

/-- Concrete evaluation of `snapshot_invariants`: two failures, then
success. -/
theorem snapshot_invariants_witness :
    (∀ (i : RetryInfo) (exc : PyErr),
        RetryInfo.update i exc = ⟨i.fails + 1, exc, i.since⟩ ∧
          RetryInfo.update i exc ≠ i) ∧
      policyCallsOf (perform sampleOpFail2 samplePolicyNever none 0 (0 + 1 + 2)).events =
        infosIn sampleErr 0 0 2 ∧
      (∀ k, (infoAt sampleErr 0 k).fails = k + 1 ∧ (infoAt sampleErr 0 k).since = 0 ∧
        (infoAt sampleErr 0 k).exception = sampleErr k ∧
        infoAt sampleErr 0 (k + 1) ≠ infoAt sampleErr 0 k) :=
  snapshot_invariants sampleOpFail2 samplePolicyNever none sampleErr (fun _ => 0) 0 2 0 42
    (by decide) (by decide)

/-- Concrete evaluation of `delay_decision_sleep`: a decision with delay 5
at the first failure. -/
theorem delay_decision_sleep_witness :
    ((5 : Int) > 0 →
      performAux sampleOpFail samplePolicyDelay5 none 0 (1 + 1) none 0 =
        ⟨(performAux sampleOpFail samplePolicyDelay5 none 0 1
            (some (nextInfo none (sampleErr 0) 0)) (0 + 1)).outcome,
          .attempt 0 :: .policyCall (nextInfo none (sampleErr 0) 0) ::
            (([] : List Event) ++ .slept 5 ::
              (performAux sampleOpFail samplePolicyDelay5 none 0 1
                (some (nextInfo none (sampleErr 0) 0)) (0 + 1)).events)⟩) ∧
    ((5 : Int) = 0 →
      performAux sampleOpFail samplePolicyDelay5 none 0 (1 + 1) none 0 =
        ⟨(performAux sampleOpFail samplePolicyDelay5 none 0 1
            (some (nextInfo none (sampleErr 0) 0)) (0 + 1)).outcome,
          .attempt 0 :: .policyCall (nextInfo none (sampleErr 0) 0) ::
            (([] : List Event) ++
              (performAux sampleOpFail samplePolicyDelay5 none 0 1
                (some (nextInfo none (sampleErr 0) 0)) (0 + 1)).events)⟩) ∧
    (∀ f', 1 = f' + 1 →
      ∃ l, (performAux sampleOpFail samplePolicyDelay5 none 0 1
        (some (nextInfo none (sampleErr 0) 0)) (0 + 1)).events =
          Event.attempt (0 + 1) :: l) :=
  delay_decision_sleep sampleOpFail samplePolicyDelay5 none 0 1 none 0 (sampleErr 0) 5
    (by decide) (by decide) (by decide) (by decide)

/-- Concrete evaluation of `nonpositive_delay_no_sleep`: a decision with
delay -3 at the first failure. -/
theorem nonpositive_delay_no_sleep_witness :
    performAux sampleOpFail samplePolicyDelayNeg none 0 (1 + 1) none 0 =
      ⟨(performAux sampleOpFail samplePolicyDelayNeg none 0 1
          (some (nextInfo none (sampleErr 0) 0)) (0 + 1)).outcome,
        .attempt 0 :: .policyCall (nextInfo none (sampleErr 0) 0) ::
          (([] : List Event) ++
            (performAux sampleOpFail samplePolicyDelayNeg none 0 1
              (some (nextInfo none (sampleErr 0) 0)) (0 + 1)).events)⟩ ∧
    (∀ f', 1 = f' + 1 →
      ∃ l, (performAux sampleOpFail samplePolicyDelayNeg none 0 1
        (some (nextInfo none (sampleErr 0) 0)) (0 + 1)).events =
          Event.attempt (0 + 1) :: l) :=
  nonpositive_delay_no_sleep sampleOpFail samplePolicyDelayNeg none 0 1 none 0
    (sampleErr 0) (-3) (by decide) (by decide) (by decide) (by decide) (by decide)

/-- Concrete evaluation of `base_exception_propagates`: bare
`BaseException`s raised by the operation, the policy and the hook. -/
theorem base_exception_propagates_witness :
    performAux sampleOpBase samplePolicyNever none 0 (0 + 1) none 0 =
      ⟨.baseError ⟨false, 9⟩, [.attempt 0]⟩ ∧
    performAux sampleOpFail samplePolicyBase none 0 (0 + 1) none 0 =
      ⟨.baseError ⟨false, 10⟩,
        [.attempt 0, .policyCall (nextInfo none (sampleErr 0) 0)]⟩ ∧
    performAux sampleOpFail samplePolicyNever (some sampleHookBase) 0 (0 + 1) none 0 =
      ⟨.baseError ⟨false, 11⟩,
        [.attempt 0, .policyCall (nextInfo none (sampleErr 0) 0),
          .hookCall (nextInfo none (sampleErr 0) 0)]⟩ :=
  ⟨(base_exception_propagates (α := Nat)).1 sampleOpBase samplePolicyNever none 0 0 none 0
      ⟨false, 9⟩ (by decide) (by decide),
    (base_exception_propagates (α := Nat)).2.1 sampleOpFail samplePolicyBase none 0 0 none 0
      (sampleErr 0) ⟨false, 10⟩ (by decide) (by decide) (by decide) (by decide),
    (base_exception_propagates (α := Nat)).2.2 sampleOpFail samplePolicyNever sampleHookBase
      0 0 none 0 (sampleErr 0) ⟨false, 11⟩ 0 (by decide) (by decide) (by decide) (by decide)
      (by decide)⟩

/-- Concrete evaluation of `named_reference_resolution`: the name `pol` with
no receiver, and with `sampleObj` as the receiver. -/
theorem named_reference_resolution_witness :
    wrappedRun (Sum.inr "pol") none [] sampleOpOk sampleInterpP sampleInterpH 0 1 =
      ⟨.cfgError ("[aioretry] decorator should be used for instance method if retry_policy as a str \"" ++
        "pol" ++ "\", which should be fixed"), []⟩ ∧
    wrappedRun (Sum.inl (PyCallable.plain 9 "q")) (some (Sum.inr "pol")) []
        sampleOpOk sampleInterpP sampleInterpH 0 1 =
      ⟨.cfgError ("[aioretry] decorator should be used for instance method if before_retry as a str \"" ++
        "pol" ++ "\", which should be fixed"), []⟩ ∧
    wrappedRun (Sum.inr "pol") none [sampleObj] sampleOpOk sampleInterpP sampleInterpH 0 1 =
      performAux sampleOpOk (sampleInterpP (PyCallable.boundMethod 5 "pol" 2)) none 0 1
        none 0 :=
  ⟨(named_reference_resolution "pol" sampleOpOk sampleInterpP sampleInterpH 0 1).1 none,
    (named_reference_resolution "pol" sampleOpOk sampleInterpP sampleInterpH 0 1).2.1
      (PyCallable.plain 9 "q"),
    (named_reference_resolution "pol" sampleOpOk sampleInterpP sampleInterpH 0 1).2.2
      sampleObj [] (PyCallable.boundMethod 5 "pol" 2) (by decide)⟩

/-- Concrete evaluation of `direct_callable_binding` against `sampleObj`. -/
theorem direct_callable_binding_witness :
    get_method (Sum.inl (PyCallable.clsWrapper 7 "m")) (some sampleObj) "retry_policy" =
      .ok (PyCallable.clsBoundMethod 7 "m" sampleObj.cls.cid) ∧
    get_method (Sum.inl (PyCallable.statWrapper 7 "m")) (some sampleObj) "retry_policy" =
      .ok (PyCallable.plain 7 "m") ∧
    get_method (Sum.inl (PyCallable.plain 5 "pol")) (some sampleObj) "retry_policy" =
      .ok (dunderGet (PyCallable.plain 5 "pol") sampleObj.oid sampleObj.cls.cid) ∧
    get_method (Sum.inl (PyCallable.plain 9 "ext")) (some sampleObj) "retry_policy" =
      .ok (PyCallable.plain 9 "ext") :=
  ⟨(direct_callable_binding sampleObj "retry_policy").1 7 "m",
    (direct_callable_binding sampleObj "retry_policy").2.1 7 "m",
    (direct_callable_binding sampleObj "retry_policy").2.2.1 (PyCallable.plain 5 "pol")
      (by decide),
    (direct_callable_binding sampleObj "retry_policy").2.2.2 9 "ext" (by decide)⟩

end Aioretry
